import Mathlib

/-!
Verification of the lucendex indexer pipeline
(`backend/cmd/indexer/main.go`).

The embedding follows the source: `processLedger` and the startup
gap-detection / backfill state machine of `main` are translated into pure
Lean functions.  The collaborator packages `internal/store`,
`internal/parser` and `internal/xrpl` are not part of the source tree;
their *outcomes* (parse results, store-write failures, fetch failures)
are abstracted into an explicit environment so that the control flow of
`main.go` — which is what the claims are about — is modelled exactly,
for every possible collaborator behaviour.  Persistent store state
(checkpoints / pools / offers keyed as in the spec) is modelled from the
spec where noted.
-/

namespace Lucendex

/-! ### 64-bit machine arithmetic (Go `uint64` / `int64` conversions) -/

/-- `2^64`, the modulus of Go's `uint64`. -/
def U64 : Nat := 2 ^ 64

/-- `2^63`, half the `int64` range. -/
def I64H : Int := 2 ^ 63

/-- Reinterpret an integer as Go `int64` (two's-complement wrap). -/
def wrapInt64 (i : Int) : Int := ((i + I64H) % (U64 : Int)) - I64H

/-- Go conversion `int64(u)` of a `uint64` value `u` (given as a `Nat`). -/
def toInt64 (n : Nat) : Int := wrapInt64 (n : Int)

/-- Go conversion `uint64(i)` of an `int64` value `i`. -/
def toUInt64 (i : Int) : Nat := (i % (U64 : Int)).toNat

/-- Go `uint64` subtraction `a - b` (wraps modulo `2^64`). -/
def u64sub (a b : Nat) : Nat := (a % U64 + (U64 - b % U64)) % U64

/-- Go `int64` addition (wraps in two's complement). -/
def i64add (a b : Int) : Int := wrapInt64 (a + b)

/-! ### Data model -/

/-- A transaction as delivered inside a ledger payload
(`xrpl.Transaction`; the fields `processLedger` inspects). -/
structure Transaction where
  hash : String
  transactionType : String
  deriving DecidableEq, Repr

/-- A closed-ledger payload (`xrpl.LedgerResponse`; the fields
`processLedger` inspects). -/
structure LedgerResponse where
  ledgerIndex : Nat
  ledgerHash : String
  ledgerTime : Nat
  txnCount : Nat
  transactions : List Transaction
  deriving DecidableEq, Repr

/-- Modelled from the spec: `internal/store` is not in the source tree.
`LedgerCheckpoint` row, with the fields `processLedger` fills in
(`store.LedgerCheckpoint`). -/
structure LedgerCheckpoint where
  ledgerIndex : Int
  ledgerHash : String
  closeTime : Int
  closeTimeHuman : Int
  transactionCount : Nat
  processingDurationMs : Nat
  deriving DecidableEq, Repr

/-- Modelled from the spec: `internal/parser` is not in the source tree.
An `AMMPool` record as produced by the AMM parser (spec §3). -/
structure AMMPool where
  poolId : String
  asset1 : String
  asset2 : String
  reserve1 : Int
  reserve2 : Int
  feeBps : Nat
  lastUpdatedLedger : Nat
  deriving DecidableEq, Repr

/-- Modelled from the spec: `internal/parser` is not in the source tree.
An `OrderbookOffer` record (spec §3); `offer_id` is derived from
`owner`+`sequence`, so offers are keyed by that pair. -/
structure OrderbookOffer where
  owner : String
  sequence : Nat
  baseAsset : String
  quoteAsset : String
  price : String
  quantity : String
  status : String
  ledgerIndex : Int
  meta : String
  deriving DecidableEq, Repr

/-! ### Association-list store -/

/-- Lookup in an association list by key. -/
def alookup {κ α : Type} [DecidableEq κ] (k : κ) : List (κ × α) → Option α
  | [] => none
  | (k2, v) :: rest => if k2 = k then some v else alookup k rest

/-- Insert-or-replace in an association list by key (upsert-on-conflict
semantics of the Store contract, spec §6). -/
def aupsert {κ α : Type} [DecidableEq κ] (k : κ) (v : α) :
    List (κ × α) → List (κ × α)
  | [] => [(k, v)]
  | (k2, v2) :: rest =>
      if k2 = k then (k, v) :: rest else (k2, v2) :: aupsert k v rest

/-- Modelled from the spec: `internal/store` is not in the source tree.
Durable store state: checkpoints keyed by ledger index, AMM pools keyed
by pool id, offers keyed by (owner, sequence) (spec §3, §6). -/
structure StoreState where
  checkpoints : List (Int × LedgerCheckpoint)
  pools : List (String × AMMPool)
  offers : List ((String × Nat) × OrderbookOffer)
  deriving DecidableEq, Repr

/-- Modelled from the spec: `store.GetCheckpoint` — read the checkpoint
row for a ledger index, if any. -/
def StoreState.getCheckpoint (s : StoreState) (idx : Int) :
    Option LedgerCheckpoint :=
  alookup idx s.checkpoints

/-- Modelled from the spec: `store.SaveCheckpoint` — upsert the
checkpoint row keyed by ledger index. -/
def StoreState.saveCheckpoint (s : StoreState) (cp : LedgerCheckpoint) :
    StoreState :=
  { s with checkpoints := aupsert cp.ledgerIndex cp s.checkpoints }

/-- Modelled from the spec: `store.UpsertAMMPool` — upsert keyed by pool
id. -/
def StoreState.upsertAMMPool (s : StoreState) (p : AMMPool) : StoreState :=
  { s with pools := aupsert p.poolId p s.pools }

/-- Modelled from the spec: `store.UpsertOffer` — upsert keyed by the
offer's (owner, sequence) identity. -/
def StoreState.upsertOffer (s : StoreState) (o : OrderbookOffer) :
    StoreState :=
  { s with offers := aupsert (o.owner, o.sequence) o s.offers }

/-- Modelled from the spec: `store.CancelOffer` — transition the matching
offer to `cancelled` at the given ledger index; no-op when no offer
matches (spec §8, cancel resolution). -/
def StoreState.cancelOffer (s : StoreState) (account : String) (seq : Nat)
    (lgIdx : Int) : StoreState :=
  { s with offers := s.offers.map (fun p =>
      if p.1 = (account, seq) then
        (p.1, { p.2 with status := "cancelled", ledgerIndex := lgIdx })
      else p) }

/-! ### Collaborator environment

`processLedger` calls into the parser and store packages; their outcomes
for a given run are captured in an `Env`, so the pipeline's control flow
is modelled for every possible collaborator behaviour. -/

/-- Outcomes of the collaborator calls made by `processLedger`
(`main.go`): parser results (`internal/parser`) and store-write /
store-read failures (`internal/store`), plus the measured processing
duration. -/
structure Env where
  /-- `db.GetCheckpoint(ctx, idx)` returns a non-nil error. -/
  getCheckpointErr : Int → Bool
  /-- `json.Marshal` / `json.Unmarshal` of the transaction succeed. -/
  marshalOk : Transaction → Bool
  /-- `ammParser.ParseTransaction`: error, or `nil` (not applicable), or a pool. -/
  ammParse : Transaction → Except String (Option AMMPool)
  /-- `db.UpsertAMMPool` returns a non-nil error. -/
  upsertPoolErr : AMMPool → Bool
  /-- `orderbookParser.ParseTransaction`: error, or `nil`, or an offer. -/
  obParse : Transaction → Except String (Option OrderbookOffer)
  /-- `db.UpsertOffer` returns a non-nil error. -/
  upsertOfferErr : OrderbookOffer → Bool
  /-- `orderbookParser.ParseOfferCancel`: error, or (account, sequence). -/
  offerCancelParse : Transaction → Except String (String × Nat)
  /-- `db.CancelOffer` returns a non-nil error. -/
  cancelOfferErr : String → Nat → Bool
  /-- `db.SaveCheckpoint` returns a non-nil error. -/
  saveCheckpointErr : LedgerCheckpoint → Bool
  /-- measured `time.Since(start)` in milliseconds. -/
  durationMs : Nat

/-- Observable effects of a `processLedger` run, in program order:
log-worthy decisions and every store write it performs. -/
inductive Effect where
  /-- duplicate guard hit: `return nil` before anything else. -/
  | skippedDuplicate (idx : Int)
  /-- continuity check found the previous checkpoint (verbose log). -/
  | verifiedSequential (idx prev : Int)
  /-- the per-transaction loop body ran for this transaction. -/
  | txAttempted (hash : String)
  /-- successful `UpsertAMMPool`. -/
  | poolUpserted (poolId : String)
  /-- successful `UpsertOffer`. -/
  | offerUpserted (owner : String) (seq : Nat)
  /-- successful `CancelOffer`. -/
  | offerCancelled (account : String) (seq : Nat)
  /-- successful `SaveCheckpoint`. -/
  | checkpointSaved (idx : Int)
  deriving DecidableEq, Repr

/-! ### processLedger (`main.go` lines 234-346) -/

/-- AMM-parser step of the transaction loop: on parse error log and move
on; on a pool, upsert it (upsert failure logged, state unchanged). -/
def ammStep (env : Env) (s : StoreState) (tx : Transaction) :
    List Effect × StoreState :=
  match env.ammParse tx with
  | .error _ => ([], s)
  | .ok none => ([], s)
  | .ok (some pool) =>
      if env.upsertPoolErr pool then ([], s)
      else ([Effect.poolUpserted pool.poolId], s.upsertAMMPool pool)

/-- Orderbook-parser step of the transaction loop. -/
def obStep (env : Env) (s : StoreState) (tx : Transaction) :
    List Effect × StoreState :=
  match env.obParse tx with
  | .error _ => ([], s)
  | .ok none => ([], s)
  | .ok (some offer) =>
      if env.upsertOfferErr offer then ([], s)
      else ([Effect.offerUpserted offer.owner offer.sequence], s.upsertOffer offer)

/-- OfferCancel step of the transaction loop: only for transactions of
type `OfferCancel`; parse errors and store errors are logged, never
propagated. -/
def cancelStep (env : Env) (s : StoreState) (lgIdx : Nat)
    (tx : Transaction) : List Effect × StoreState :=
  if tx.transactionType = "OfferCancel" then
    match env.offerCancelParse tx with
    | .error _ => ([], s)
    | .ok (account, seq) =>
        if env.cancelOfferErr account seq then ([], s)
        else ([Effect.offerCancelled account seq],
              s.cancelOffer account seq (toInt64 lgIdx))
  else ([], s)

/-- One iteration of the per-transaction loop of `processLedger`: marshal
(failure → `continue`), then the AMM parser, the orderbook parser and the
OfferCancel handling, each independent, no error propagated. -/
def processTx (env : Env) (lgIdx : Nat) (s : StoreState)
    (tx : Transaction) : List Effect × StoreState :=
  if env.marshalOk tx then
    let amm := ammStep env s tx
    let ob := obStep env amm.2 tx
    let canc := cancelStep env ob.2 lgIdx tx
    (Effect.txAttempted tx.hash :: (amm.1 ++ ob.1 ++ canc.1), canc.2)
  else
    ([Effect.txAttempted tx.hash], s)

/-- The whole per-transaction loop, threading the store state. -/
def processTxs (env : Env) (lgIdx : Nat) :
    StoreState → List Transaction → List Effect × StoreState
  | s, [] => ([], s)
  | s, tx :: rest =>
      let step := processTx env lgIdx s tx
      let restRun := processTxs env lgIdx step.2 rest
      (step.1 ++ restRun.1, restRun.2)

/-- The duplicate guard condition of `processLedger`: the
`GetCheckpoint` call returned no error and a non-nil checkpoint. -/
def duplicateHit (env : Env) (s : StoreState) (idx : Int) : Bool :=
  !env.getCheckpointErr idx && (s.getCheckpoint idx).isSome

/-- The checkpoint row `processLedger` builds for a ledger
(Ripple-epoch close time converted to Unix by adding 946684800). -/
def mkCheckpoint (env : Env) (lg : LedgerResponse) : LedgerCheckpoint :=
  { ledgerIndex := toInt64 lg.ledgerIndex
    ledgerHash := lg.ledgerHash
    closeTime := toInt64 lg.ledgerTime
    closeTimeHuman := i64add (toInt64 lg.ledgerTime) 946684800
    transactionCount := lg.txnCount
    processingDurationMs := env.durationMs }

/-- The best-effort continuity check of `processLedger` (`main.go`
lines 251-260): for ledgers beyond index 1, when the previous ledger's
checkpoint is found (lookup error-free and non-nil) a verbose
`Verified sequential ledger` line is logged; in every other case the
check emits nothing. -/
def contEvents (env : Env) (s : StoreState) (lg : LedgerResponse) :
    List Effect :=
  if lg.ledgerIndex > 1 && !env.getCheckpointErr (toInt64 (lg.ledgerIndex - 1))
      && (s.getCheckpoint (toInt64 (lg.ledgerIndex - 1))).isSome then
    [Effect.verifiedSequential (toInt64 lg.ledgerIndex)
      (toInt64 (lg.ledgerIndex - 1))]
  else []

/-- `processLedger` (`main.go`):
1. duplicate guard — skip entirely when a checkpoint already exists;
2. best-effort continuity check — a verbose log when the previous
   checkpoint is found, nothing otherwise;
3. the per-transaction loop;
4. `SaveCheckpoint`, whose error is the only one returned.
Returns the Go `error` result, the effect trace and the new store
state. -/
def processLedger (env : Env) (s : StoreState) (lg : LedgerResponse) :
    Except String Unit × List Effect × StoreState :=
  if duplicateHit env s (toInt64 lg.ledgerIndex) then
    (Except.ok (), [Effect.skippedDuplicate (toInt64 lg.ledgerIndex)], s)
  else
    if env.saveCheckpointErr (mkCheckpoint env lg) then
      (Except.error "SaveCheckpoint failed",
       contEvents env s lg ++ (processTxs env lg.ledgerIndex s lg.transactions).1,
       (processTxs env lg.ledgerIndex s lg.transactions).2)
    else
      (Except.ok (),
       contEvents env s lg ++ (processTxs env lg.ledgerIndex s lg.transactions).1
         ++ [Effect.checkpointSaved (toInt64 lg.ledgerIndex)],
       ((processTxs env lg.ledgerIndex s lg.transactions).2).saveCheckpoint
         (mkCheckpoint env lg))

/-! ### Gap detection & backfill decision (`main.go` lines 124-208) -/

/-- `const smallGapThreshold = 1000` (`main.go` line 130). -/
def smallGapThreshold : Nat := 1000

/-- The backfill start point (`main.go` lines 134-138): `checkpoint+1`
(in `int64`, then converted to `uint64`), raised to the configured
start ledger when below it. -/
def backfillStartOf (cpIdx : Int) (startLedger : Nat) : Nat :=
  if toUInt64 (i64add cpIdx 1) < startLedger then startLedger
  else toUInt64 (i64add cpIdx 1)

/-- The startup decision of the gap state machine. -/
inductive GapDecision where
  /-- no checkpoint at all: start from the live stream. -/
  | noCheckpoint
  /-- `gap ≤ 1`: up to date, no backfill. -/
  | noGap
  /-- `missing > smallGapThreshold`: skip backfill, resume live. -/
  | largeGapSkip (missing : Nat)
  /-- the whole missing range lies before the start-ledger cutoff. -/
  | cutoffSkip
  /-- launch the backfill task walking `[start, stop)`. -/
  | smallGapBackfill (start stop : Nat)
  deriving DecidableEq, Repr

/-- The gap detection & backfill decision taken once at startup
(`main.go` lines 124-208), given the last checkpoint's ledger index (if
any), the current validated ledger, and the configured start ledger.
All arithmetic is the source's: `gap` is a `uint64` subtraction of
`uint64(checkpoint.LedgerIndex)` from the current ledger. -/
def gapDecision (checkpoint : Option Int) (currentLedger startLedger : Nat) :
    GapDecision :=
  match checkpoint with
  | none => GapDecision.noCheckpoint
  | some cpIdx =>
      let gap := u64sub currentLedger (toUInt64 cpIdx)
      if gap > 1 then
        let missing := gap - 1
        let backfillStart := backfillStartOf cpIdx startLedger
        if missing > smallGapThreshold then GapDecision.largeGapSkip missing
        else if backfillStart ≥ currentLedger then GapDecision.cutoffSkip
        else GapDecision.smallGapBackfill backfillStart currentLedger
      else GapDecision.noGap

/-- Index sequence of a counting loop, by remaining iteration count:
`visitAux i n` are the `n` indices `i, i+1, …, i+n-1`. -/
def visitAux : Nat → Nat → List Nat
  | _, 0 => []
  | i, n + 1 => i :: visitAux (i + 1) n

/-- The index sequence of the backfill loop
`for i := backfillStart; i < currentLedger; i++` (`main.go` line 166):
all indices from `start` up to but excluding `stop`. -/
def backfillVisit (start stop : Nat) : List Nat :=
  visitAux start (stop - start)

/-! ### The backfill task body (`main.go` lines 151-201) -/

/-- Events of a backfill task run. -/
inductive BfEvent where
  /-- `FetchLedgerSync(i)` succeeded on 0-based attempt `attempt`. -/
  | fetched (i attempt : Nat)
  /-- attempt `attempt` (1-based) for ledger `i` failed: logged
  `Backfill retry attempt/3`, then slept `backoffSeconds`. -/
  | retrySleep (i attempt backoffSeconds : Nat)
  /-- `processLedger` for ledger `i` returned nil. -/
  | processedOk (i : Nat)
  /-- `processLedger` for ledger `i` returned an error (logged, loop
  continues). -/
  | processedErr (i : Nat)
  /-- all retries exhausted for ledger `i`: the whole task returns. -/
  | aborted (i : Nat)
  /-- the loop ran to completion. -/
  | completed
  deriving DecidableEq, Repr

/-- The ledger index a backfill event concerns, when any. -/
def BfEvent.ledgerOf : BfEvent → Option Nat
  | BfEvent.fetched i _ => some i
  | BfEvent.retrySleep i _ _ => some i
  | BfEvent.processedOk i => some i
  | BfEvent.processedErr i => some i
  | BfEvent.aborted i => some i
  | BfEvent.completed => none

/-- Number of fetch attempts per ledger: `for retry := 0; retry < 3`. -/
def fetchRetries : Nat := 3

/-- The retry loop around `FetchLedgerSync` (`main.go` lines 169-176),
by remaining attempt count: the current 0-based attempt number is
`retry`; a failed attempt `retry` logs `Backfill retry retry+1/3` and
sleeps `retry+1` seconds before the next attempt.  Returns whether a
fetch succeeded, plus the events. -/
def retryFetchAux (fetchOk : Nat → Nat → Bool) (i : Nat) :
    Nat → Nat → Bool × List BfEvent
  | _, 0 => (false, [])
  | retry, left + 1 =>
      if fetchOk i retry then (true, [BfEvent.fetched i retry])
      else
        let rest := retryFetchAux fetchOk i (retry + 1) left
        (rest.1, BfEvent.retrySleep i (retry + 1) (retry + 1) :: rest.2)

/-- The whole retry loop for one ledger:
`for retry := 0; retry < 3; retry++`. -/
def retryFetch (fetchOk : Nat → Nat → Bool) (i : Nat) :
    Bool × List BfEvent :=
  retryFetchAux fetchOk i 0 fetchRetries

/-- The backfill loop body (`main.go` lines 166-197), by remaining
iteration count (`fuel` iterations starting at index `i`): walk the
indices ascending; exhausted retries on any ledger abort the whole task
(`return`); a `processLedger` error is only logged. -/
def backfillRunAux (fetchOk : Nat → Nat → Bool) (procOk : Nat → Bool) :
    Nat → Nat → List BfEvent
  | _, 0 => [BfEvent.completed]
  | i, fuel + 1 =>
      if (retryFetch fetchOk i).1 then
        (retryFetch fetchOk i).2
          ++ [if procOk i then BfEvent.processedOk i else BfEvent.processedErr i]
          ++ backfillRunAux fetchOk procOk (i + 1) fuel
      else
        (retryFetch fetchOk i).2 ++ [BfEvent.aborted i]

/-- The backfill task loop `for i := backfillStart; i < currentLedger; i++`
(`main.go` line 166) with all its fetch/process outcomes: `fetchOk i r`
tells whether 0-based attempt `r` of `FetchLedgerSync(i)` succeeds,
`procOk i` whether `processLedger` on ledger `i` returns nil. -/
def backfillRun (fetchOk : Nat → Nat → Bool) (procOk : Nat → Bool)
    (start stop : Nat) : List BfEvent :=
  backfillRunAux fetchOk procOk start (stop - start)

/-! ### Startup sequence (`main.go` lines 60-232) -/

/-- Milestones of `main`'s startup, in program order. -/
inductive StartupStep where
  | dbConnected
  | checkpointLoaded
  | clientConnected
  | serverInfoFetched
  | subscribed
  | gapEvaluated (d : GapDecision)
  | liveLoopEntered
  /-- `log.Fatalf`: the process exits at the named stage. -/
  | fatalExit (stage : String)
  deriving DecidableEq, Repr

/-- Outcomes of the startup-phase collaborator calls of `main`. -/
structure StartupEnv where
  /-- `store.NewStore` succeeds. -/
  dbOk : Bool
  /-- `db.GetLastCheckpoint`: error, or the optional last checkpoint's
  ledger index. -/
  checkpointLoad : Except Unit (Option Int)
  /-- `client.Connect` succeeds. -/
  connectOk : Bool
  /-- `client.GetServerInfo`: the current validated ledger, or an error. -/
  serverInfo : Option Nat
  /-- `client.Subscribe` succeeds. -/
  subscribeOk : Bool
  /-- the configured `-start-ledger` flag. -/
  startLedger : Nat

/-- The startup sequence of `main` (`main.go` lines 60-232): connect to
the database, load the last checkpoint, connect to rippled, fetch server
info, subscribe to the ledger stream, and only then evaluate the gap and
the backfill decision before entering the live loop.  Every failure up
to and including `Subscribe` is a `log.Fatalf` process exit. -/
def startupTrace (e : StartupEnv) : List StartupStep :=
  if e.dbOk then
    match e.checkpointLoad with
    | Except.error _ =>
        [StartupStep.dbConnected, StartupStep.fatalExit "get-last-checkpoint"]
    | Except.ok cp =>
        if e.connectOk then
          match e.serverInfo with
          | none =>
              [StartupStep.dbConnected, StartupStep.checkpointLoaded,
               StartupStep.clientConnected, StartupStep.fatalExit "server-info"]
          | some currentLedger =>
              if e.subscribeOk then
                [StartupStep.dbConnected, StartupStep.checkpointLoaded,
                 StartupStep.clientConnected, StartupStep.serverInfoFetched,
                 StartupStep.subscribed,
                 StartupStep.gapEvaluated (gapDecision cp currentLedger e.startLedger),
                 StartupStep.liveLoopEntered]
              else
                [StartupStep.dbConnected, StartupStep.checkpointLoaded,
                 StartupStep.clientConnected, StartupStep.serverInfoFetched,
                 StartupStep.fatalExit "subscribe"]
        else
          [StartupStep.dbConnected, StartupStep.checkpointLoaded,
           StartupStep.fatalExit "connect"]
  else [StartupStep.fatalExit "db-connect"]

/-! ### Helper lemmas -/

theorem U64_val : U64 = 18446744073709551616 := by norm_num [U64]

theorem I64H_val : I64H = 9223372036854775808 := by norm_num [I64H]

theorem U64_int_val : (U64 : Int) = 18446744073709551616 := by norm_num [U64]

/-- `wrapInt64` is the identity on the `int64` range. -/
theorem wrapInt64_eq_self (i : Int) (h1 : -I64H ≤ i) (h2 : i < I64H) :
    wrapInt64 i = i := by
  have hI := I64H_val
  unfold wrapInt64
  rw [U64_int_val, Int.emod_eq_of_lt (by omega) (by omega)]
  omega

/-- `int64(n)` is `n` for small `n`. -/
theorem toInt64_eq_self (n : Nat) (h : n < 2 ^ 63) : toInt64 n = (n : Int) := by
  unfold toInt64
  exact wrapInt64_eq_self _ (by rw [I64H_val]; omega)
    (by rw [I64H_val]; exact_mod_cast by omega)

/-- `uint64(n)` is `n` for `n` in range. -/
theorem toUInt64_coe (n : Nat) (h : n < U64) : toUInt64 (n : Int) = n := by
  unfold toUInt64
  rw [Int.emod_eq_of_lt (by positivity) (by exact_mod_cast h)]
  exact Int.toNat_natCast n

/-- `uint64` subtraction is plain subtraction when no wrap occurs. -/
theorem u64sub_eq_sub (a b : Nat) (hb : b ≤ a) (ha : a < U64) :
    u64sub a b = a - b := by
  have hU := U64_val
  unfold u64sub
  have h1 : a % U64 = a := Nat.mod_eq_of_lt ha
  have h2 : b % U64 = b := Nat.mod_eq_of_lt (by omega)
  rw [h1, h2]
  have h3 : a + (U64 - b) = (a - b) + U64 := by omega
  rw [h3, Nat.add_mod_right]
  exact Nat.mod_eq_of_lt (by omega)

/-- `int64` addition is plain addition when no wrap occurs. -/
theorem i64add_eq_add (a b : Int) (h1 : -I64H ≤ a + b) (h2 : a + b < I64H) :
    i64add a b = a + b := wrapInt64_eq_self _ h1 h2

/-- The gap subtraction of `main.go` line 127 is an exact `Nat`
subtraction for in-range inputs. -/
theorem gap_eq_sub (c cur : Nat) (hc : c < 2 ^ 63) (hcur : cur < U64)
    (hle : c ≤ cur) : u64sub cur (toUInt64 ((c : Nat) : Int)) = cur - c := by
  rw [toUInt64_coe c (by rw [U64_val]; omega), u64sub_eq_sub cur c hle hcur]

/-- The backfill start point is the max of `checkpoint+1` and the
configured start ledger (for in-range checkpoint indices). -/
theorem backfillStartOf_eq_max (c : Nat) (sl : Nat) (hc : c + 1 < 2 ^ 63) :
    backfillStartOf ((c : Nat) : Int) sl = max (c + 1) sl := by
  have h1 : toUInt64 (i64add ((c : Nat) : Int) 1) = c + 1 := by
    have h2 : i64add ((c : Nat) : Int) 1 = ((c + 1 : Nat) : Int) := by
      rw [i64add_eq_add _ _ (by rw [I64H_val]; omega)
        (by rw [I64H_val]; exact_mod_cast by omega)]
      push_cast
      ring
    rw [h2]
    exact toUInt64_coe (c + 1) (by rw [U64_val]; omega)
  unfold backfillStartOf
  rw [h1]
  simp only [Nat.max_def]
  split_ifs <;> omega

/-- Lookup after upsert at the same key. -/
theorem alookup_aupsert_self {κ α : Type} [DecidableEq κ] (k : κ) (v : α) :
    ∀ l : List (κ × α), alookup k (aupsert k v l) = some v := by
  intro l
  induction l with
  | nil => simp [aupsert, alookup]
  | cons hd tl ih =>
      by_cases h : hd.1 = k
      · simp [aupsert, alookup, h]
      · simp [aupsert, alookup, h, ih]

/-- `visitAux i n` is the interval `[i, i+n)`. -/
theorem visitAux_eq_range' : ∀ n i, visitAux i n = List.range' i n := by
  intro n
  induction n with
  | zero => intro i; simp [visitAux]
  | succ k ih =>
      intro i
      rw [visitAux, List.range'_succ i k 1]
      exact congrArg (i :: ·) (ih (i + 1))

/-- The backfill loop's index sequence is the half-open interval
`[start, stop)`. -/
theorem backfillVisit_eq_range (start stop : Nat) :
    backfillVisit start stop = List.range' start (stop - start) :=
  visitAux_eq_range' (stop - start) start

/-- The backfill loop's index sequence is strictly ascending. -/
theorem backfillVisit_sorted (start stop : Nat) :
    List.Chain' (fun a b => a < b) (backfillVisit start stop) := by
  rw [backfillVisit_eq_range]
  exact List.Pairwise.chain' (List.pairwise_lt_range' start (stop - start))

/-- Arithmetic characterization of the startup gap decision for
in-range inputs: the `uint64`/`int64` round-trips disappear. -/
theorem gapDecision_some (c cur sl : Nat) (hc : c + 1 < 2 ^ 63)
    (hcur : cur < U64) (hle : c ≤ cur) :
    gapDecision (some ((c : Nat) : Int)) cur sl =
      if cur - c > 1 then
        if cur - c - 1 > smallGapThreshold then
          GapDecision.largeGapSkip (cur - c - 1)
        else if max (c + 1) sl ≥ cur then GapDecision.cutoffSkip
        else GapDecision.smallGapBackfill (max (c + 1) sl) cur
      else GapDecision.noGap := by
  simp only [gapDecision]
  rw [gap_eq_sub c cur (by omega) hcur hle, backfillStartOf_eq_max c sl hc]

/-- A fetch that succeeds within the remaining attempts makes the retry
loop report success. -/
theorem retryFetchAux_succeeds (fetchOk : Nat → Nat → Bool) (i : Nat) :
    ∀ left retry, (∃ r, retry ≤ r ∧ r < retry + left ∧ fetchOk i r = true) →
      (retryFetchAux fetchOk i retry left).1 = true := by
  intro left
  induction left with
  | zero => intro retry ⟨r, h1, h2, _⟩; omega
  | succ k ih =>
      intro retry ⟨r, h1, h2, h3⟩
      rw [retryFetchAux]
      by_cases h : fetchOk i retry = true
      · simp [h]
      · have hr : retry ≠ r := fun he => h (he ▸ h3)
        simp only [h, Bool.false_eq_true, if_false]
        exact ih (retry + 1) ⟨r, by omega, by omega, h3⟩

/-- All events emitted by the retry loop concern its own ledger. -/
theorem retryFetchAux_events (fetchOk : Nat → Nat → Bool) (i : Nat) :
    ∀ left retry e, e ∈ (retryFetchAux fetchOk i retry left).2 →
      ∀ k, BfEvent.ledgerOf e = some k → k = i := by
  intro left
  induction left with
  | zero => intro retry e he; cases he
  | succ n ih =>
      intro retry e he k hk
      rw [retryFetchAux] at he
      by_cases h : fetchOk i retry = true
      · simp [h] at he
        subst he
        simp [BfEvent.ledgerOf] at hk
        omega
      · simp only [h, Bool.false_eq_true, if_false, List.mem_cons] at he
        rcases he with he | he
        · subst he
          simp [BfEvent.ledgerOf] at hk
          omega
        · exact ih (retry + 1) e he k hk

/-- Exhausting all 3 attempts: the retry loop fails, after backoffs of
1, 2 and 3 seconds (linear backoff). -/
theorem retryFetch_exhaust (fetchOk : Nat → Nat → Bool) (i : Nat)
    (h : ∀ r, r < fetchRetries → fetchOk i r = false) :
    retryFetch fetchOk i =
      (false, [BfEvent.retrySleep i 1 1, BfEvent.retrySleep i 2 2,
               BfEvent.retrySleep i 3 3]) := by
  have h0 := h 0 (by norm_num [fetchRetries])
  have h1 := h 1 (by norm_num [fetchRetries])
  have h2 := h 2 (by norm_num [fetchRetries])
  simp [retryFetch, fetchRetries, retryFetchAux, h0, h1, h2]

/-- Exhausted retries on ledger `j` abort the whole backfill task: the
run ends with the abort event and never touches a ledger beyond `j`. -/
theorem backfillRunAux_abort (fetchOk : Nat → Nat → Bool)
    (procOk : Nat → Bool) (j : Nat)
    (hexh : ∀ r, r < fetchRetries → fetchOk j r = false) :
    ∀ fuel start, start ≤ j → j < start + fuel →
      (∀ i, start ≤ i → i < j → ∃ r, r < fetchRetries ∧ fetchOk i r = true) →
      (backfillRunAux fetchOk procOk start fuel).getLast? =
          some (BfEvent.aborted j)
        ∧ ∀ e ∈ backfillRunAux fetchOk procOk start fuel,
            ∀ k, BfEvent.ledgerOf e = some k → k ≤ j := by
  intro fuel
  induction fuel with
  | zero => intro start h1 h2 _; omega
  | succ n ih =>
      intro start h1 h2 hbefore
      rw [backfillRunAux]
      by_cases hj : start = j
      · subst hj
        rw [retryFetch_exhaust fetchOk start hexh]
        simp only [Bool.false_eq_true, if_false]
        refine ⟨List.getLast?_concat _, ?_⟩
        intro e he k hk
        simp only [List.mem_append, List.mem_singleton, List.mem_cons,
          List.not_mem_nil, or_false] at he
        rcases he with (he | he | he) | he <;>
          (subst he; simp [BfEvent.ledgerOf] at hk; omega)
      · have hstart : start < j := by omega
        obtain ⟨r, hr, hfetch⟩ := hbefore start (le_refl start) hstart
        have hsucc : (retryFetch fetchOk start).1 = true :=
          retryFetchAux_succeeds fetchOk start fetchRetries 0 ⟨r, by omega, by omega, hfetch⟩
        rw [if_pos hsucc]
        obtain ⟨ihLast, ihMem⟩ := ih (start + 1) (by omega) (by omega)
          (fun i hi1 hi2 => hbefore i (by omega) hi2)
        constructor
        · rw [List.getLast?_append, List.getLast?_append]
          have hne : (backfillRunAux fetchOk procOk (start + 1) n).getLast? =
              some (BfEvent.aborted j) := ihLast
          simp [hne]
        · intro e he k hk
          simp only [List.mem_append] at he
          rcases he with (he | he) | he
          · have := retryFetchAux_events fetchOk start fetchRetries 0 e he k hk
            omega
          · simp at he
            split at he <;>
              (subst he; simp [BfEvent.ledgerOf] at hk; omega)
          · exact ihMem e he k hk

/-- When every ledger's first fetch attempt succeeds and every
`processLedger` call returns nil, the backfill task visits exactly the
loop's index interval, in order. -/
theorem backfillRunAux_all_ok (fetchOk : Nat → Nat → Bool)
    (procOk : Nat → Bool) (hfetch : ∀ i, fetchOk i 0 = true)
    (hproc : ∀ i, procOk i = true) :
    ∀ fuel start, backfillRunAux fetchOk procOk start fuel =
      (visitAux start fuel).flatMap
        (fun i => [BfEvent.fetched i 0, BfEvent.processedOk i])
        ++ [BfEvent.completed] := by
  intro fuel
  induction fuel with
  | zero => intro start; simp [backfillRunAux, visitAux]
  | succ n ih =>
      intro start
      rw [backfillRunAux, visitAux]
      have hf : retryFetch fetchOk start = (true, [BfEvent.fetched start 0]) := by
        simp [retryFetch, fetchRetries, retryFetchAux, hfetch start]
      rw [hf]
      simp only [if_pos, hproc start, if_true, List.flatMap_cons, ih (start + 1)]
      simp

/-- The trace of one transaction-loop iteration always starts with its
`txAttempted` marker. -/
theorem processTx_head (env : Env) (lgIdx : Nat) (s : StoreState)
    (tx : Transaction) :
    ∃ rest, (processTx env lgIdx s tx).1 = Effect.txAttempted tx.hash :: rest := by
  unfold processTx
  split
  · exact ⟨_, rfl⟩
  · exact ⟨[], rfl⟩

/-- Every transaction of the ledger is attempted by the loop, whatever
parser or store errors occur. -/
theorem processTxs_attempts_all (env : Env) (lgIdx : Nat) :
    ∀ (txs : List Transaction) (s : StoreState) (tx : Transaction),
      tx ∈ txs →
      Effect.txAttempted tx.hash ∈ (processTxs env lgIdx s txs).1 := by
  intro txs
  induction txs with
  | nil => intro s tx h; cases h
  | cons hd tl ih =>
      intro s tx hmem
      rw [processTxs]
      rcases List.mem_cons.mp hmem with h | h
      · subst h
        obtain ⟨rest, hr⟩ := processTx_head env lgIdx s tx
        exact List.mem_append_left _ (hr ▸ List.mem_cons_self _ _)
      · exact List.mem_append_right _ (ih _ tx h)

/-- A duplicate-guard hit short-circuits `processLedger` completely. -/
theorem processLedger_skips (env : Env) (s : StoreState)
    (lg : LedgerResponse)
    (h : duplicateHit env s (toInt64 lg.ledgerIndex) = true) :
    processLedger env s lg =
      (Except.ok (), [Effect.skippedDuplicate (toInt64 lg.ledgerIndex)], s) := by
  rw [processLedger, if_pos h]

/-- Result of a non-skipped run: `ok` unless the checkpoint write
fails. -/
theorem processLedger_result (env : Env) (s : StoreState)
    (lg : LedgerResponse)
    (h : duplicateHit env s (toInt64 lg.ledgerIndex) = false) :
    (processLedger env s lg).1 =
      (if env.saveCheckpointErr (mkCheckpoint env lg) then
        Except.error "SaveCheckpoint failed"
      else Except.ok ()) := by
  rw [processLedger, if_neg (by simp [h])]
  split <;> rfl

/-- Trace of a non-skipped run: continuity events, then the whole
transaction loop, then the checkpoint save marker (if the write
succeeded). -/
theorem processLedger_trace (env : Env) (s : StoreState)
    (lg : LedgerResponse)
    (h : duplicateHit env s (toInt64 lg.ledgerIndex) = false) :
    (processLedger env s lg).2.1 =
      contEvents env s lg
        ++ (processTxs env lg.ledgerIndex s lg.transactions).1
        ++ (if env.saveCheckpointErr (mkCheckpoint env lg) then []
            else [Effect.checkpointSaved (toInt64 lg.ledgerIndex)]) := by
  rw [processLedger, if_neg (by simp [h])]
  split <;> simp

/-- Final store of a non-skipped run: the transaction loop's writes,
plus the checkpoint row when its write succeeded. -/
theorem processLedger_store (env : Env) (s : StoreState)
    (lg : LedgerResponse)
    (h : duplicateHit env s (toInt64 lg.ledgerIndex) = false) :
    (processLedger env s lg).2.2 =
      (if env.saveCheckpointErr (mkCheckpoint env lg) then
        (processTxs env lg.ledgerIndex s lg.transactions).2
      else
        ((processTxs env lg.ledgerIndex s lg.transactions).2).saveCheckpoint
          (mkCheckpoint env lg)) := by
  rw [processLedger, if_neg (by simp [h])]
  split <;> rfl

/-- Reading back a checkpoint row just saved. -/
theorem getCheckpoint_saveCheckpoint (s : StoreState)
    (cp : LedgerCheckpoint) :
    (s.saveCheckpoint cp).getCheckpoint cp.ledgerIndex = some cp :=
  alookup_aupsert_self cp.ledgerIndex cp s.checkpoints

/-- A duplicate-guard hit presupposes a present checkpoint. -/
theorem duplicateHit_isSome (env : Env) (s : StoreState) (idx : Int)
    (h : duplicateHit env s idx = true) :
    (s.getCheckpoint idx).isSome = true := by
  simp only [duplicateHit, Bool.and_eq_true] at h
  exact h.2

/-- After any run of `processLedger` whose checkpoint write would
succeed, the store holds a checkpoint for the ledger's index. -/
theorem processLedger_checkpoint_present (env : Env) (s : StoreState)
    (lg : LedgerResponse)
    (hsave : env.saveCheckpointErr (mkCheckpoint env lg) = false) :
    ((processLedger env s lg).2.2.getCheckpoint (toInt64 lg.ledgerIndex)).isSome
      = true := by
  by_cases hdup : duplicateHit env s (toInt64 lg.ledgerIndex) = true
  · rw [processLedger_skips env s lg hdup]
    exact duplicateHit_isSome env s _ hdup
  · rw [processLedger_store env s lg (by simpa using hdup), if_neg (by simp [hsave])]
    have hkey : (mkCheckpoint env lg).ledgerIndex = toInt64 lg.ledgerIndex := rfl
    rw [← hkey, getCheckpoint_saveCheckpoint]
    rfl

/-! ### Concrete fixtures for witnesses -/

/-- An environment in which every collaborator call succeeds and no
transaction is DEX-relevant. -/
def benignEnv : Env where
  getCheckpointErr := fun _ => false
  marshalOk := fun _ => true
  ammParse := fun _ => Except.ok none
  upsertPoolErr := fun _ => false
  obParse := fun _ => Except.ok none
  upsertOfferErr := fun _ => false
  offerCancelParse := fun _ => Except.error "not an OfferCancel"
  cancelOfferErr := fun _ _ => false
  saveCheckpointErr := fun _ => false
  durationMs := 0

/-- An environment whose checkpoint lookups all fail. -/
def failingLookupEnv : Env :=
  { benignEnv with getCheckpointErr := fun _ => true }

/-- An environment with a failing AMM parse and failing offer upserts. -/
def flakyEnv : Env :=
  { benignEnv with
    ammParse := fun _ => Except.error "bad AMM payload"
    upsertOfferErr := fun _ => true }

/-- The empty store. -/
def emptyStore : StoreState where
  checkpoints := []
  pools := []
  offers := []

/-- A minimal checkpoint row at a given index. -/
def cpRow (i : Int) : LedgerCheckpoint where
  ledgerIndex := i
  ledgerHash := "h"
  closeTime := 0
  closeTimeHuman := 946684800
  transactionCount := 0
  processingDurationMs := 0

/-- A store already holding a checkpoint for ledger 12345. -/
def store12345 : StoreState where
  checkpoints := [(12345, cpRow 12345)]
  pools := []
  offers := []

/-- Ledger 12345 with no transactions. -/
def lg12345 : LedgerResponse where
  ledgerIndex := 12345
  ledgerHash := "h12345"
  ledgerTime := 0
  txnCount := 0
  transactions := []

/-- Two plain transactions. -/
def txA : Transaction := { hash := "a", transactionType := "Payment" }

def txB : Transaction := { hash := "b", transactionType := "OfferCancel" }

/-- Ledger 100 carrying the two transactions. -/
def lg100 : LedgerResponse where
  ledgerIndex := 100
  ledgerHash := "h100"
  ledgerTime := 5
  txnCount := 2
  transactions := [txA, txB]

/-- Ledger 2, one transaction, used against a store that lacks
checkpoint 1. -/
def lg2 : LedgerResponse where
  ledgerIndex := 2
  ledgerHash := "h2"
  ledgerTime := 0
  txnCount := 1
  transactions := [{ hash := "t1", transactionType := "Payment" }]

/-! ### Claims -/

/-- C1: for every ledger whose index already has a checkpoint in the
store (and whose checkpoint lookup succeeds), `processLedger` is an
idempotent no-op: it returns nil with nothing but the skip log in its
trace — no transaction parsed, no pool/offer write, no checkpoint
rewrite — and the store is left exactly as it was; consequently
processing the same ledger index twice (from any starting store) leaves
the same final checkpoint/pool/offer state as processing it once. -/
theorem duplicate_guard_idempotent_noop
    (env env2 : Env) (s : StoreState) (lg : LedgerResponse)
    (hget : env.getCheckpointErr (toInt64 lg.ledgerIndex) = false)
    (hpres : (s.getCheckpoint (toInt64 lg.ledgerIndex)).isSome = true)
    (hget2 : env2.getCheckpointErr (toInt64 lg.ledgerIndex) = false)
    (hsave : env.saveCheckpointErr (mkCheckpoint env lg) = false) :
    processLedger env s lg =
      (Except.ok (), [Effect.skippedDuplicate (toInt64 lg.ledgerIndex)], s)
    ∧ ∀ s0 : StoreState,
        processLedger env2 (processLedger env s0 lg).2.2 lg =
          (Except.ok (), [Effect.skippedDuplicate (toInt64 lg.ledgerIndex)],
           (processLedger env s0 lg).2.2) := by
  constructor
  · exact processLedger_skips env s lg (by simp [duplicateHit, hget, hpres])
  · intro s0
    exact processLedger_skips env2 _ lg
      (by simp [duplicateHit, hget2,
        processLedger_checkpoint_present env s0 lg hsave])

theorem duplicate_guard_idempotent_noop_witness :
    (benignEnv.getCheckpointErr (toInt64 lg12345.ledgerIndex) = false
      ∧ (store12345.getCheckpoint (toInt64 lg12345.ledgerIndex)).isSome = true
      ∧ benignEnv.saveCheckpointErr (mkCheckpoint benignEnv lg12345) = false)
    ∧ (processLedger benignEnv store12345 lg12345 =
        (Except.ok (),
         [Effect.skippedDuplicate (toInt64 lg12345.ledgerIndex)], store12345)
      ∧ ∀ s0 : StoreState,
          processLedger benignEnv (processLedger benignEnv s0 lg12345).2.2 lg12345 =
            (Except.ok (),
             [Effect.skippedDuplicate (toInt64 lg12345.ledgerIndex)],
             (processLedger benignEnv s0 lg12345).2.2)) :=
  ⟨⟨by decide, by decide, by decide⟩,
   duplicate_guard_idempotent_noop benignEnv benignEnv store12345 lg12345
     (by decide) (by decide) (by decide) (by decide)⟩

/-- C6: in any non-skipped `processLedger` run, parser and store errors
on individual transactions never abort the loop — every transaction of
the ledger is attempted — the checkpoint save marker can only be the
very last event of the trace, and the run returns an error exactly when
the checkpoint write itself fails. -/
theorem per_tx_errors_never_abort
    (env : Env) (s : StoreState) (lg : LedgerResponse)
    (hdup : duplicateHit env s (toInt64 lg.ledgerIndex) = false) :
    (∀ tx ∈ lg.transactions,
        Effect.txAttempted tx.hash ∈ (processLedger env s lg).2.1)
    ∧ ((processLedger env s lg).1 = Except.ok () ↔
        env.saveCheckpointErr (mkCheckpoint env lg) = false)
    ∧ (env.saveCheckpointErr (mkCheckpoint env lg) = false →
        (processLedger env s lg).2.1.getLast? =
          some (Effect.checkpointSaved (toInt64 lg.ledgerIndex)))
    ∧ (env.saveCheckpointErr (mkCheckpoint env lg) = true →
        (processLedger env s lg).1 = Except.error "SaveCheckpoint failed") := by
  refine ⟨?_, ?_, ?_, ?_⟩
  · intro tx htx
    rw [processLedger_trace env s lg hdup]
    exact List.mem_append_left _
      (List.mem_append_right _
        (processTxs_attempts_all env lg.ledgerIndex lg.transactions s tx htx))
  · by_cases hs : env.saveCheckpointErr (mkCheckpoint env lg) = true
    · simp [processLedger_result env s lg hdup, hs]
    · simp [processLedger_result env s lg hdup, hs]
  · intro hsave
    rw [processLedger_trace env s lg hdup, if_neg (by simp [hsave])]
    exact List.getLast?_concat _
  · intro hs
    rw [processLedger_result env s lg hdup, if_pos hs]

theorem per_tx_errors_never_abort_witness :
    duplicateHit flakyEnv emptyStore (toInt64 lg100.ledgerIndex) = false
    ∧ ((∀ tx ∈ lg100.transactions,
          Effect.txAttempted tx.hash ∈ (processLedger flakyEnv emptyStore lg100).2.1)
      ∧ ((processLedger flakyEnv emptyStore lg100).1 = Except.ok () ↔
          flakyEnv.saveCheckpointErr (mkCheckpoint flakyEnv lg100) = false)
      ∧ (flakyEnv.saveCheckpointErr (mkCheckpoint flakyEnv lg100) = false →
          (processLedger flakyEnv emptyStore lg100).2.1.getLast? =
            some (Effect.checkpointSaved (toInt64 lg100.ledgerIndex)))
      ∧ (flakyEnv.saveCheckpointErr (mkCheckpoint flakyEnv lg100) = true →
          (processLedger flakyEnv emptyStore lg100).1 =
            Except.error "SaveCheckpoint failed")) :=
  ⟨by decide, per_tx_errors_never_abort flakyEnv emptyStore lg100 (by decide)⟩

/-- C8 as stated is false on the code: with the checkpoint for the
preceding index absent, `processLedger` logs nothing at all in its
continuity step — here, ledger 2 over a store lacking checkpoint 1
produces a trace holding only the transaction attempt and the
checkpoint-save marker, with no discontinuity log — although processing
does proceed normally. -/
theorem continuity_check_counterexample :
    (emptyStore.getCheckpoint (toInt64 (lg2.ledgerIndex - 1))).isSome = false
    ∧ lg2.ledgerIndex > 1
    ∧ (processLedger benignEnv emptyStore lg2).2.1 =
        [Effect.txAttempted "t1", Effect.checkpointSaved 2]
    ∧ (processLedger benignEnv emptyStore lg2).1 = Except.ok () := by
  refine ⟨by decide, by decide, by decide, by rfl⟩

/-- C8 (amended): the continuity check is best-effort and non-fatal,
but silent in the negative case: whenever the preceding checkpoint is
absent, the check emits nothing (the verbose confirmation is logged
only when the previous checkpoint is found), and `processLedger` still
processes the ledger completely normally — every transaction attempted,
checkpoint written, success returned unless the checkpoint write itself
fails.  Sequential continuity is never an enforced precondition. -/
theorem continuity_check_silent_nonblocking
    (env : Env) (s : StoreState) (lg : LedgerResponse)
    (hdup : duplicateHit env s (toInt64 lg.ledgerIndex) = false)
    (hprev : (s.getCheckpoint (toInt64 (lg.ledgerIndex - 1))).isSome = false) :
    contEvents env s lg = []
    ∧ (processLedger env s lg).2.1 =
        (processTxs env lg.ledgerIndex s lg.transactions).1
          ++ (if env.saveCheckpointErr (mkCheckpoint env lg) then []
              else [Effect.checkpointSaved (toInt64 lg.ledgerIndex)])
    ∧ (∀ tx ∈ lg.transactions,
        Effect.txAttempted tx.hash ∈ (processLedger env s lg).2.1)
    ∧ ((processLedger env s lg).1 = Except.ok () ↔
        env.saveCheckpointErr (mkCheckpoint env lg) = false) := by
  have hcont : contEvents env s lg = [] := by
    simp [contEvents, hprev]
  refine ⟨hcont, ?_, ?_, ?_⟩
  · rw [processLedger_trace env s lg hdup, hcont, List.nil_append]
  · intro tx htx
    rw [processLedger_trace env s lg hdup]
    exact List.mem_append_left _
      (List.mem_append_right _
        (processTxs_attempts_all env lg.ledgerIndex lg.transactions s tx htx))
  · by_cases hs : env.saveCheckpointErr (mkCheckpoint env lg) = true
    · simp [processLedger_result env s lg hdup, hs]
    · simp [processLedger_result env s lg hdup, hs]

theorem continuity_check_silent_nonblocking_witness :
    (duplicateHit benignEnv emptyStore (toInt64 lg2.ledgerIndex) = false
      ∧ (emptyStore.getCheckpoint (toInt64 (lg2.ledgerIndex - 1))).isSome = false)
    ∧ contEvents benignEnv emptyStore lg2 = [] :=
  ⟨⟨by decide, by decide⟩,
   (continuity_check_silent_nonblocking benignEnv emptyStore lg2
     (by decide) (by decide)).1⟩

/-- C9: the duplicate guard fails open — when the checkpoint-existence
lookup itself errors, `processLedger` does not skip even if the store
does hold a checkpoint for the index: it runs the full transaction loop
(every transaction attempted), returns nil when the save succeeds, and
rewrites the checkpoint row for the ledger. -/
theorem duplicate_guard_fails_open
    (env : Env) (s : StoreState) (lg : LedgerResponse)
    (herr : env.getCheckpointErr (toInt64 lg.ledgerIndex) = true)
    (hpres : (s.getCheckpoint (toInt64 lg.ledgerIndex)).isSome = true)
    (hsave : env.saveCheckpointErr (mkCheckpoint env lg) = false) :
    (∀ tx ∈ lg.transactions,
        Effect.txAttempted tx.hash ∈ (processLedger env s lg).2.1)
    ∧ (processLedger env s lg).2.1 =
        contEvents env s lg
          ++ (processTxs env lg.ledgerIndex s lg.transactions).1
          ++ [Effect.checkpointSaved (toInt64 lg.ledgerIndex)]
    ∧ (processLedger env s lg).1 = Except.ok ()
    ∧ (processLedger env s lg).2.2.getCheckpoint (toInt64 lg.ledgerIndex) =
        some (mkCheckpoint env lg) := by
  have hdup : duplicateHit env s (toInt64 lg.ledgerIndex) = false := by
    simp [duplicateHit, herr]
  refine ⟨?_, ?_, ?_, ?_⟩
  · intro tx htx
    rw [processLedger_trace env s lg hdup]
    exact List.mem_append_left _
      (List.mem_append_right _
        (processTxs_attempts_all env lg.ledgerIndex lg.transactions s tx htx))
  · rw [processLedger_trace env s lg hdup, if_neg (by simp [hsave])]
  · rw [processLedger_result env s lg hdup, if_neg (by simp [hsave])]
  · rw [processLedger_store env s lg hdup, if_neg (by simp [hsave])]
    exact getCheckpoint_saveCheckpoint _ _

theorem duplicate_guard_fails_open_witness :
    (failingLookupEnv.getCheckpointErr (toInt64 lg12345.ledgerIndex) = true
      ∧ (store12345.getCheckpoint (toInt64 lg12345.ledgerIndex)).isSome = true
      ∧ failingLookupEnv.saveCheckpointErr
          (mkCheckpoint failingLookupEnv lg12345) = false)
    ∧ (processLedger failingLookupEnv store12345 lg12345).1 = Except.ok () :=
  ⟨⟨by decide, by decide, by decide⟩,
   (duplicate_guard_fails_open failingLookupEnv store12345 lg12345
     (by decide) (by decide) (by decide)).2.2.1⟩

/-- C2: at startup with an existing checkpoint `c`, the gap is computed
as `current − c`; `gap ≤ 1` yields no backfill; whenever a backfill is
launched it walks exactly the half-open interval
`[backfillStart, current)` in strictly ascending order — in particular
checkpoint 1000 / current 1006 backfills `[1001, 1005]`, and checkpoint
1000 / current 1101 backfills `[1001, 1100]` (with the configured start
ledger at or below 1001). -/
theorem gap_arithmetic_backfill_range (c cur sl : Nat)
    (hc : c + 1 < 2 ^ 63) (hcur : cur < U64) (hle : c ≤ cur) :
    u64sub cur (toUInt64 ((c : Nat) : Int)) = cur - c
    ∧ (cur - c ≤ 1 →
        gapDecision (some ((c : Nat) : Int)) cur sl = GapDecision.noGap)
    ∧ (∀ start stop,
        gapDecision (some ((c : Nat) : Int)) cur sl =
            GapDecision.smallGapBackfill start stop →
          start = max (c + 1) sl ∧ stop = cur
          ∧ backfillVisit start stop = List.range' start (stop - start)
          ∧ List.Chain' (fun a b => a < b) (backfillVisit start stop)
          ∧ ∀ fetchOk procOk, (∀ i, fetchOk i 0 = true) →
              (∀ i, procOk i = true) →
              backfillRun fetchOk procOk start stop =
                (backfillVisit start stop).flatMap
                  (fun i => [BfEvent.fetched i 0, BfEvent.processedOk i])
                  ++ [BfEvent.completed])
    ∧ (c = 1000 → cur = 1006 → sl ≤ 1001 →
        gapDecision (some ((c : Nat) : Int)) cur sl =
            GapDecision.smallGapBackfill 1001 1006
          ∧ backfillVisit 1001 1006 = [1001, 1002, 1003, 1004, 1005])
    ∧ (c = 1000 → cur = 1101 → sl ≤ 1001 →
        gapDecision (some ((c : Nat) : Int)) cur sl =
            GapDecision.smallGapBackfill 1001 1101
          ∧ backfillVisit 1001 1101 = List.range' 1001 100) := by
  refine ⟨gap_eq_sub c cur (by omega) hcur hle, ?_, ?_, ?_, ?_⟩
  · intro hgap
    rw [gapDecision_some c cur sl hc hcur hle, if_neg (by omega)]
  · intro start stop h
    rw [gapDecision_some c cur sl hc hcur hle] at h
    by_cases h1 : cur - c > 1
    · rw [if_pos h1] at h
      by_cases h2 : cur - c - 1 > smallGapThreshold
      · rw [if_pos h2] at h
        cases h
      · rw [if_neg h2] at h
        by_cases h3 : max (c + 1) sl ≥ cur
        · rw [if_pos h3] at h
          cases h
        · rw [if_neg h3] at h
          injection h with hstart hstop
          subst hstart
          subst hstop
          refine ⟨rfl, rfl, backfillVisit_eq_range _ _,
            backfillVisit_sorted _ _, ?_⟩
          intro fetchOk procOk hf hp
          exact backfillRunAux_all_ok fetchOk procOk hf hp _ _
    · rw [if_neg h1] at h
      cases h
  · intro h1 h2 h3
    subst h1
    subst h2
    have hmax : max (1000 + 1) sl = 1001 := by omega
    rw [gapDecision_some 1000 1006 sl hc hcur (by omega),
      if_pos (by omega), if_neg (by simp [smallGapThreshold]), hmax,
      if_neg (by omega)]
    exact ⟨rfl, by decide⟩
  · intro h1 h2 h3
    subst h1
    subst h2
    have hmax : max (1000 + 1) sl = 1001 := by omega
    rw [gapDecision_some 1000 1101 sl hc hcur (by omega),
      if_pos (by omega), if_neg (by simp [smallGapThreshold]), hmax,
      if_neg (by omega)]
    refine ⟨rfl, ?_⟩
    rw [backfillVisit_eq_range]

theorem gap_arithmetic_backfill_range_witness :
    (1000 + 1 < 2 ^ 63 ∧ 1006 < U64 ∧ 1000 ≤ 1006)
    ∧ gapDecision (some ((1000 : Nat) : Int)) 1006 1000 =
        GapDecision.smallGapBackfill 1001 1006
    ∧ backfillVisit 1001 1006 = [1001, 1002, 1003, 1004, 1005] :=
  ⟨⟨by norm_num, by norm_num [U64], by norm_num⟩,
   (gap_arithmetic_backfill_range 1000 1006 1000 (by norm_num)
     (by norm_num [U64]) (by norm_num)).2.2.2.1 rfl rfl (by norm_num)⟩

/-- C3: whenever the missing-ledger count `gap − 1` exceeds the fixed
`smallGapThreshold` of 1000, the startup decision is the large-gap
skip — no backfill task is launched and live processing resumes from
the current ledger. -/
theorem large_gap_skips_backfill (c cur sl : Nat)
    (hc : c + 1 < 2 ^ 63) (hcur : cur < U64) (hle : c ≤ cur)
    (hmiss : smallGapThreshold < cur - c - 1) :
    smallGapThreshold = 1000
    ∧ gapDecision (some ((c : Nat) : Int)) cur sl =
        GapDecision.largeGapSkip (cur - c - 1)
    ∧ ∀ start stop,
        gapDecision (some ((c : Nat) : Int)) cur sl ≠
          GapDecision.smallGapBackfill start stop := by
  have hthr : smallGapThreshold = 1000 := rfl
  have hdec : gapDecision (some ((c : Nat) : Int)) cur sl =
      GapDecision.largeGapSkip (cur - c - 1) := by
    rw [gapDecision_some c cur sl hc hcur hle,
      if_pos (by rw [hthr] at hmiss; omega), if_pos hmiss]
  exact ⟨hthr, hdec, fun start stop h => by rw [hdec] at h; cases h⟩

theorem large_gap_skips_backfill_witness :
    (1000 + 1 < 2 ^ 63 ∧ 3000 < U64 ∧ 1000 ≤ 3000
      ∧ smallGapThreshold < 3000 - 1000 - 1)
    ∧ gapDecision (some ((1000 : Nat) : Int)) 3000 0 =
        GapDecision.largeGapSkip 1999 :=
  ⟨⟨by norm_num, by norm_num [U64], by norm_num,
    by norm_num [smallGapThreshold]⟩,
   (large_gap_skips_backfill 1000 3000 0 (by norm_num) (by norm_num [U64])
     (by norm_num) (by norm_num [smallGapThreshold])).2.1⟩

/-- C4: the backfill start point is `max(checkpoint+1, configured start
ledger)` — for checkpoint 50 and configured start 100000 it clamps to
100000, not 51 — and whenever that clamped start is at or beyond the
current validated ledger, no backfill task is launched. -/
theorem backfill_start_cutoff (c cur sl : Nat)
    (hc : c + 1 < 2 ^ 63) (hcur : cur < U64) (hle : c ≤ cur) :
    backfillStartOf ((c : Nat) : Int) sl = max (c + 1) sl
    ∧ (cur ≤ backfillStartOf ((c : Nat) : Int) sl →
        ∀ start stop,
          gapDecision (some ((c : Nat) : Int)) cur sl ≠
            GapDecision.smallGapBackfill start stop)
    ∧ (c = 50 → sl = 100000 → backfillStartOf ((c : Nat) : Int) sl = 100000) := by
  have hbs := backfillStartOf_eq_max c sl hc
  refine ⟨hbs, ?_, ?_⟩
  · intro hge start stop h
    rw [hbs] at hge
    rw [gapDecision_some c cur sl hc hcur hle] at h
    by_cases h1 : cur - c > 1
    · rw [if_pos h1] at h
      by_cases h2 : cur - c - 1 > smallGapThreshold
      · rw [if_pos h2] at h
        cases h
      · rw [if_neg h2, if_pos (by omega)] at h
        cases h
    · rw [if_neg h1] at h
      cases h
  · intro h1 h2
    subst h1
    subst h2
    rw [hbs]
    omega

theorem backfill_start_cutoff_witness :
    (50 + 1 < 2 ^ 63 ∧ 200000 < U64 ∧ 50 ≤ 200000)
    ∧ backfillStartOf ((50 : Nat) : Int) 100000 = 100000 :=
  ⟨⟨by norm_num, by norm_num [U64], by norm_num⟩,
   (backfill_start_cutoff 50 200000 100000 (by norm_num) (by norm_num [U64])
     (by norm_num)).2.2 rfl rfl⟩

/-- C10: the large-gap decision is taken on the raw missing count,
before the start-ledger cutoff is applied to the range: whenever
`gap − 1 > 1000`, the decision is the large-gap skip even when clamping
to the configured start ledger would shrink the fetchable range
`[backfillStart, current)` to at most 1000 ledgers. -/
theorem large_gap_before_cutoff (c cur sl : Nat)
    (hc : c + 1 < 2 ^ 63) (hcur : cur < U64) (hle : c ≤ cur)
    (hmiss : smallGapThreshold < cur - c - 1)
    (hshrunk : cur - backfillStartOf ((c : Nat) : Int) sl ≤ smallGapThreshold) :
    gapDecision (some ((c : Nat) : Int)) cur sl =
        GapDecision.largeGapSkip (cur - c - 1)
    ∧ ∀ start stop,
        gapDecision (some ((c : Nat) : Int)) cur sl ≠
          GapDecision.smallGapBackfill start stop := by
  have hdec : gapDecision (some ((c : Nat) : Int)) cur sl =
      GapDecision.largeGapSkip (cur - c - 1) := by
    rw [gapDecision_some c cur sl hc hcur hle,
      if_pos (by simp [smallGapThreshold] at hmiss; omega), if_pos hmiss]
  exact ⟨hdec, fun start stop h => by rw [hdec] at h; cases h⟩

theorem large_gap_before_cutoff_witness :
    (50 + 1 < 2 ^ 63 ∧ 200000 < U64 ∧ 50 ≤ 200000
      ∧ smallGapThreshold < 200000 - 50 - 1
      ∧ 200000 - backfillStartOf ((50 : Nat) : Int) 199500 ≤ smallGapThreshold)
    ∧ gapDecision (some ((50 : Nat) : Int)) 200000 199500 =
        GapDecision.largeGapSkip 199949 :=
  ⟨⟨by norm_num, by norm_num [U64], by norm_num,
    by norm_num [smallGapThreshold],
    by rw [backfillStartOf_eq_max 50 199500 (by norm_num)]
       norm_num [smallGapThreshold]⟩,
   (large_gap_before_cutoff 50 200000 199500 (by norm_num) (by norm_num [U64])
     (by norm_num) (by norm_num [smallGapThreshold])
     (by rw [backfillStartOf_eq_max 50 199500 (by norm_num)]
         norm_num [smallGapThreshold])).1⟩

/-- C5: each backfill ledger fetch makes at most `fetchRetries = 3`
attempts, with linearly increasing backoff (1 s, 2 s, 3 s) between
attempts; exhausting the retries on a single ledger `j` aborts the
entire backfill task — the run ends at the abort event, every event of
the run concerns a ledger ≤ `j`, and no later ledger of the range is
fetched or processed.  (The live loop is a separate control path: the
backfill task has its own client and parsers and only `return`s from
its own goroutine, `main.go` lines 151-201.) -/
theorem backfill_retry_exhaustion_aborts
    (fetchOk : Nat → Nat → Bool) (procOk : Nat → Bool) (start stop j : Nat)
    (hjlo : start ≤ j) (hjhi : j < stop)
    (hbefore : ∀ i, start ≤ i → i < j →
      ∃ r, r < fetchRetries ∧ fetchOk i r = true)
    (hexh : ∀ r, r < fetchRetries → fetchOk j r = false) :
    fetchRetries = 3
    ∧ retryFetch fetchOk j =
        (false, [BfEvent.retrySleep j 1 1, BfEvent.retrySleep j 2 2,
                 BfEvent.retrySleep j 3 3])
    ∧ (backfillRun fetchOk procOk start stop).getLast? =
        some (BfEvent.aborted j)
    ∧ (∀ e ∈ backfillRun fetchOk procOk start stop,
        ∀ k, BfEvent.ledgerOf e = some k → k ≤ j)
    ∧ (∀ k, j < k →
        (∀ a, BfEvent.fetched k a ∉ backfillRun fetchOk procOk start stop)
        ∧ BfEvent.processedOk k ∉ backfillRun fetchOk procOk start stop
        ∧ BfEvent.processedErr k ∉ backfillRun fetchOk procOk start stop) := by
  obtain ⟨hlast, hmem⟩ := backfillRunAux_abort fetchOk procOk j hexh
    (stop - start) start hjlo (by omega) hbefore
  refine ⟨rfl, retryFetch_exhaust fetchOk j hexh, hlast, hmem, ?_⟩
  intro k hk
  refine ⟨fun a hin => ?_, fun hin => ?_, fun hin => ?_⟩
  · have := hmem _ hin k rfl
    omega
  · have := hmem _ hin k rfl
    omega
  · have := hmem _ hin k rfl
    omega

theorem backfill_retry_exhaustion_aborts_witness :
    (4 ≤ 5 ∧ 5 < 7
      ∧ (∀ i, 4 ≤ i → i < 5 →
          ∃ r, r < fetchRetries ∧ (fun (i2 r2 : Nat) => decide (i2 ≠ 5)) i r = true)
      ∧ (∀ r, r < fetchRetries →
          (fun (i2 r2 : Nat) => decide (i2 ≠ 5)) 5 r = false))
    ∧ (backfillRun (fun (i2 r2 : Nat) => decide (i2 ≠ 5)) (fun _ => true) 4 7).getLast?
        = some (BfEvent.aborted 5) :=
  ⟨⟨by norm_num, by norm_num,
    fun i h1 h2 => ⟨0, by norm_num [fetchRetries], by simp; omega⟩,
    fun r _ => by simp⟩,
   (backfill_retry_exhaustion_aborts (fun (i2 r2 : Nat) => decide (i2 ≠ 5))
     (fun _ => true) 4 7 5 (by norm_num) (by norm_num)
     (fun i h1 h2 => ⟨0, by norm_num [fetchRetries], by simp; omega⟩)
     (fun r _ => by simp)).2.2.1⟩

/-- C7: `Subscribe()` happens strictly before the gap/backfill decision
— in every startup trace that contains a gap evaluation, the subscribe
step sits at position 4 and the evaluation at position 5 — and a
`Subscribe` failure is fatal: no gap evaluation ever appears, and the
trace of a run that reaches the subscribe call with it failing ends at
the fatal exit. -/
theorem subscribe_before_gap_decision (e : StartupEnv) :
    (∀ d, StartupStep.gapEvaluated d ∈ startupTrace e →
      (startupTrace e).get? 4 = some StartupStep.subscribed
        ∧ (startupTrace e).get? 5 = some (StartupStep.gapEvaluated d))
    ∧ (e.subscribeOk = false →
        ∀ d, StartupStep.gapEvaluated d ∉ startupTrace e)
    ∧ (e.dbOk = true → e.connectOk = true → e.subscribeOk = false →
        ∀ cp cur, e.checkpointLoad = Except.ok cp → e.serverInfo = some cur →
          startupTrace e =
            [StartupStep.dbConnected, StartupStep.checkpointLoaded,
             StartupStep.clientConnected, StartupStep.serverInfoFetched,
             StartupStep.fatalExit "subscribe"]) := by
  obtain ⟨db, cpl, conn, si, sub, sl⟩ := e
  cases db
  · refine ⟨fun d hd => ?_, fun _ d hd => ?_, fun h => by cases h⟩
    · simp [startupTrace] at hd
    · simp [startupTrace] at hd
  · rcases cpl with e0 | cp
    · refine ⟨fun d hd => ?_, fun _ d hd => ?_, fun _ _ _ cp cur hcp => by cases hcp⟩
      · simp [startupTrace] at hd
      · simp [startupTrace] at hd
    · cases conn
      · refine ⟨fun d hd => ?_, fun _ d hd => ?_, fun _ h => by cases h⟩
        · simp [startupTrace] at hd
        · simp [startupTrace] at hd
      · rcases si with _ | cur
        · refine ⟨fun d hd => ?_, fun _ d hd => ?_,
            fun _ _ _ cp2 cur2 _ hsi => by cases hsi⟩
          · simp [startupTrace] at hd
          · simp [startupTrace] at hd
        · cases sub
          · refine ⟨fun d hd => ?_, fun _ d hd => ?_,
              fun _ _ _ cp2 cur2 hcp hsi => ?_⟩
            · simp [startupTrace] at hd
            · simp [startupTrace] at hd
            · simp [startupTrace]
          · refine ⟨fun d hd => ?_, ?_, ?_⟩
            · have h2 : d = gapDecision cp cur sl := by
                simpa [startupTrace] using hd
              subst h2
              exact ⟨rfl, rfl⟩
            · intro hfalse d
              cases hfalse
            · intro _ _ hfalse
              cases hfalse

theorem subscribe_before_gap_decision_witness :
    StartupStep.gapEvaluated (gapDecision (some 1000) 1006 1000) ∈
      startupTrace
        { dbOk := true, checkpointLoad := Except.ok (some 1000),
          connectOk := true, serverInfo := some 1006, subscribeOk := true,
          startLedger := 1000 }
    ∧ (startupTrace
        { dbOk := true, checkpointLoad := Except.ok (some 1000),
          connectOk := true, serverInfo := some 1006, subscribeOk := true,
          startLedger := 1000 }).get? 4 = some StartupStep.subscribed :=
  ⟨by simp [startupTrace],
   ((subscribe_before_gap_decision
       { dbOk := true, checkpointLoad := Except.ok (some 1000),
         connectOk := true, serverInfo := some 1006, subscribeOk := true,
         startLedger := 1000 }).1
     (gapDecision (some 1000) 1006 1000) (by simp [startupTrace])).1⟩

end Lucendex
